import Mathlib

/-!
Verification of the webtoon brush-stroke manager
(`app/ui/canvas/webtoons/scene_items/brush_stroke_manager.py`).

Points are modelled with exact rational coordinates, `QPainterPath`s as
lists of `MoveTo`/`LineTo` commands, and the collaborating layout
manager / coordinate converter (whose sources are not part of this
repository snapshot) are modelled from the specification of the Page
Geometry Provider and the Coordinate Mapper.
-/

namespace BrushStrokeManager

/-- A point with exact rational coordinates (models `QPointF`). -/
structure Pt where
  x : ℚ
  y : ℚ
deriving DecidableEq

/-- One `QPainterPath` element: a `MoveToElement` or a `LineToElement`,
together with its point. -/
inductive PathCmd where
  | moveTo (p : Pt)
  | lineTo (p : Pt)
deriving DecidableEq

/-- The point carried by a path element. -/
def PathCmd.point : PathCmd → Pt
  | .moveTo p => p
  | .lineTo p => p

/-- Whether the element is a `MoveToElement`. -/
def PathCmd.isMove : PathCmd → Bool
  | .moveTo _ => true
  | .lineTo _ => false

/-- An RGBA colour (models `QColor`); `a`, `r`, `g`, `b` are 0..255
channel values. -/
structure Color where
  a : ℕ
  r : ℕ
  g : ℕ
  b : ℕ
deriving DecidableEq

/-- An axis-aligned rectangle (models `QRectF`): origin plus size. -/
structure Rect where
  x : ℚ
  y : ℚ
  w : ℚ
  h : ℚ
deriving DecidableEq

/-- A brush-stroke record with a definitely-present polyline path
(the dict `\x7b'path', 'pen', 'brush', 'width'\x7d` built by the manager). -/
structure StrokeData where
  path : List PathCmd
  pen : Color
  brush : Color
  width : ℚ
deriving DecidableEq

/-- The page layout data consumed from the layout manager and the
coordinate converter: `positions`/`heights` are `image_positions` and
`image_heights`, `webtoonWidth` is `webtoon_width`, and `imageWidths i`
is `image_data[i].shape[1]` when page `i` is present in
`coordinate_converter.image_data` (and `none` otherwise). -/
structure WebtoonGeometry where
  positions : List ℚ
  heights : List ℚ
  webtoonWidth : ℚ
  imageWidths : List (Option ℚ)
deriving DecidableEq

/-- The rendered width of a page: the image width when known, otherwise
the full webtoon width (mirrors `_create_page_path` lines 152-154). -/
def page_width (geo : WebtoonGeometry) (i : ℕ) : ℚ :=
  match (geo.imageWidths.getD i none) with
  | some w => w
  | none => geo.webtoonWidth

/-- The horizontal centering offset of a page
(`(webtoon_width - page_width) / 2`). -/
def page_x_offset (geo : WebtoonGeometry) (i : ℕ) : ℚ :=
  (geo.webtoonWidth - page_width geo i) / 2

/-- The page's rectangle in global (scene) coordinates, or `none` for an
out-of-range page index (mirrors `_create_page_path` lines 145-157). -/
def page_bounds (geo : WebtoonGeometry) (i : ℕ) : Option Rect :=
  if i < geo.positions.length then
    some ⟨page_x_offset geo i, geo.positions.getD i 0, page_width geo i,
          geo.heights.getD i 0⟩
  else none

/-- Modelled from the spec: the Coordinate Mapper's `to_local`
(`coordinate_converter.scene_to_page_local_position`, not part of this
repository snapshot): `(x - page.xoff, y - page.y0)`. -/
def scene_to_page_local (geo : WebtoonGeometry) (i : ℕ) (p : Pt) : Pt :=
  ⟨p.x - page_x_offset geo i, p.y - geo.positions.getD i 0⟩

/-- Modelled from the spec: the Coordinate Mapper's `to_global`
(`coordinate_converter.page_local_to_scene_position`, not part of this
repository snapshot): `(x + page.xoff, y + page.y0)`. -/
def page_local_to_scene (geo : WebtoonGeometry) (i : ℕ) (p : Pt) : Pt :=
  ⟨p.x + page_x_offset geo i, p.y + geo.positions.getD i 0⟩

/-- Modelled from the spec: the Page Geometry Provider's `page_at`
(`layout_manager.get_page_at_position`, not part of this repository
snapshot): the page whose half-open vertical interval `[y0, y0+h)`
contains `y` (lower boundary inclusive, upper exclusive). -/
def page_at (geo : WebtoonGeometry) (y : ℚ) : Option ℕ :=
  (List.range geo.positions.length).find? (fun i =>
    decide (geo.positions.getD i 0 ≤ y) &&
    decide (y < geo.positions.getD i 0 + geo.heights.getD i 0))

/-- The closed containment test used by `_create_page_path` (lines
161-162): `left <= x <= right` and `top <= y <= bottom`. -/
def point_on_page (b : Rect) (p : Pt) : Bool :=
  decide (b.x ≤ p.x) && decide (p.x ≤ b.x + b.w) &&
  decide (b.y ≤ p.y) && decide (p.y ≤ b.y + b.h)

/-- One Liang-Barsky half-plane clip step over the parameter interval
`tt`: `p` is the direction component, `q` the signed distance to the
edge; `none` means the segment is entirely clipped away. -/
def clip_t (p q : ℚ) (tt : ℚ × ℚ) : Option (ℚ × ℚ) :=
  if p = 0 then
    if q < 0 then none else some tt
  else
    let r := q / p
    if p < 0 then
      if r > tt.2 then none else some (max r tt.1, tt.2)
    else
      if r < tt.1 then none else some (tt.1, min r tt.2)

/-- Modelled from the spec: the Coordinate Mapper's
`segment_boundary_intersection`
(`coordinate_converter.find_page_boundary_intersection`, not part of
this repository snapshot): parametric line clipping of segment
`p0 → p1` against the page rectangle, solving for `t` in `[0,1]`
against each of the four half-planes. A zero-length segment yields no
intersection. When `p0` lies inside the rectangle the exit crossing is
returned, otherwise the entry crossing; the crossing is returned in
page-local coordinates, as the caller feeds it directly into the
page-local path. -/
def find_page_boundary_intersection (geo : WebtoonGeometry) (p0 p1 : Pt)
    (b : Rect) (pageIdx : ℕ) : Option Pt :=
  if p0 = p1 then none
  else
    let dx := p1.x - p0.x
    let dy := p1.y - p0.y
    match clip_t (-dx) (p0.x - b.x) (0, 1) with
    | none => none
    | some s1 =>
      match clip_t dx (b.x + b.w - p0.x) s1 with
      | none => none
      | some s2 =>
        match clip_t (-dy) (p0.y - b.y) s2 with
        | none => none
        | some s3 =>
          match clip_t dy (b.y + b.h - p0.y) s3 with
          | none => none
          | some s4 =>
            if s4.1 > s4.2 then none
            else
              let t := if point_on_page b p0 then s4.2 else s4.1
              some (scene_to_page_local geo pageIdx
                ⟨p0.x + t * dx, p0.y + t * dy⟩)

/-- One element of the scan in `_create_page_path` (lines 159-208),
given the previous scene point and the `current_subpath_started` flag:
returns the page-local commands emitted for this element, the new
value of `current_subpath_started`, and whether this element set
`has_valid_elements`.
On-page element: `MoveTo` when the element is a move or no subpath is
open, else `LineTo` (lines 164-173). Off-page element while a subpath
is open: a closing `LineTo` at the boundary intersection when the
previous point was on the page, then the subpath ends (lines 175-192).
Off-page element with the previous point also off-page: a lone
`MoveTo` at the computed intersection when the segment crosses the
page (lines 194-208). -/
def cpp_step (geo : WebtoonGeometry) (pageIdx : ℕ) (b : Rect)
    (prev : Option Pt) (started : Bool) (c : PathCmd) :
    List PathCmd × Bool × Bool :=
  let p := c.point
  if point_on_page b p then
    let lp := scene_to_page_local geo pageIdx p
    if c.isMove || !started then ([PathCmd.moveTo lp], true, true)
    else ([PathCmd.lineTo lp], true, true)
  else if started then
    let exits : List PathCmd :=
      match prev with
      | some pp =>
        if point_on_page b pp then
          match find_page_boundary_intersection geo pp p b pageIdx with
          | some q => [PathCmd.lineTo q]
          | none => []
        else []
      | none => []
    (exits, false, false)
  else
    match prev with
    | some pp =>
      if point_on_page b pp then ([], false, false)
      else
        match find_page_boundary_intersection geo pp p b pageIdx with
        | some q => ([PathCmd.moveTo q], true, true)
        | none => ([], false, false)
    | none => ([], false, false)

/-- The element scan of `_create_page_path` (lines 159-208): apply
`cpp_step` to every element in turn, concatenating the emitted
commands and or-ing the `has_valid_elements` contributions. -/
def cpp_aux (geo : WebtoonGeometry) (pageIdx : ℕ) (b : Rect) :
    Option Pt → Bool → List PathCmd → List PathCmd × Bool
  | _, _, [] => ([], false)
  | prev, started, c :: rest =>
    let s := cpp_step geo pageIdx b prev started c
    let res := cpp_aux geo pageIdx b (some c.point) s.2.1 rest
    (s.1 ++ res.1, s.2.2 || res.2)

/-- `QPainterPath.isEmpty`: true when the path has no elements or only a
single `MoveToElement`. -/
def path_is_empty : List PathCmd → Bool
  | [] => true
  | [PathCmd.moveTo _] => true
  | _ => false

/-- `_create_page_path` (lines 138-210): clip the element list to one
page, returning `none` for an out-of-range page or when no element
contributed. -/
def create_page_path (geo : WebtoonGeometry) (elems : List PathCmd)
    (i : ℕ) : Option (List PathCmd) :=
  match page_bounds geo i with
  | none => none
  | some b =>
    let res := cpp_aux geo i b none false elems
    if res.2 then some res.1 else none

/-- `_process_single_brush_stroke` (lines 99-136): collect the touched
pages of a stroke via `page_at`, clip the stroke to every touched page,
and keep the non-empty page fragments (with the stroke's style). The
result lists the produced `(page index, fragment)` pairs in ascending
page order. -/
def process_single_brush_stroke (geo : WebtoonGeometry)
    (stroke : StrokeData) : List (ℕ × StrokeData) :=
  let touched := (List.range geo.positions.length).filter (fun i =>
    stroke.path.any (fun c => decide (page_at geo c.point.y = some i)))
  touched.filterMap (fun i =>
    match create_page_path geo stroke.path i with
    | some cmds =>
      if path_is_empty cmds then none
      else some (i, { path := cmds, pen := stroke.pen,
                      brush := stroke.brush, width := stroke.width })
    | none => none)

/-- The tight bounding rectangle of a polyline path
(`QPainterPath.boundingRect` restricted to move/line elements); the
empty path has a zero rectangle. -/
def path_bounding_rect (cmds : List PathCmd) : Rect :=
  match cmds.map PathCmd.point with
  | [] => ⟨0, 0, 0, 0⟩
  | p :: ps =>
    let xmin := ps.foldl (fun a q => min a q.x) p.x
    let xmax := ps.foldl (fun a q => max a q.x) p.x
    let ymin := ps.foldl (fun a q => min a q.y) p.y
    let ymax := ps.foldl (fun a q => max a q.y) p.y
    ⟨xmin, ymin, xmax - xmin, ymax - ymin⟩

/-- A live `QGraphicsPathItem` on the scene: path in scene coordinates,
pen colour and width, and the fill brush when one was applied
(`none` models an item added without a brush, i.e. no visible fill). -/
structure SceneItem where
  path : List PathCmd
  pen : Color
  fill : Option Color
  width : ℚ
deriving DecidableEq

/-- The reserved mask-fill sentinel `#80ff0000`
(alpha `0x80`, red, no green or blue). -/
def mask_sentinel : Color := ⟨0x80, 0xFF, 0, 0⟩

/-- Modelled from the spec:
`coordinate_converter.convert_path_to_scene_coordinates` (not part of
this repository snapshot) maps every point of a page-local polyline to
global space via the Coordinate Mapper's `to_global`. Also models the
element-wise local-to-scene loop of
`redistribute_existing_brush_strokes` (lines 240-250). -/
def convert_path_to_scene (geo : WebtoonGeometry) (pageIdx : ℕ)
    (cmds : List PathCmd) : List PathCmd :=
  cmds.map (fun c =>
    match c with
    | .moveTo p => PathCmd.moveTo (page_local_to_scene geo pageIdx p)
    | .lineTo p => PathCmd.lineTo (page_local_to_scene geo pageIdx p))

/-- `load_brush_strokes` (lines 30-50): materialize every stored
fragment of a page onto the scene; pen colour and width are taken from
the record, and the fill brush is applied exactly when the stored brush
colour equals the reserved mask sentinel. -/
def load_brush_strokes (geo : WebtoonGeometry) (strokes : List StrokeData)
    (pageIdx : ℕ) : List SceneItem :=
  strokes.map (fun s =>
    { path := convert_path_to_scene geo pageIdx s.path
      pen := s.pen
      fill := if s.brush = mask_sentinel then some s.brush else none
      width := s.width })

/-- Modelled from the spec:
`coordinate_converter.convert_stroke_to_page_local` (not part of this
repository snapshot) converts a live stroke to a page-local fragment
via the Boundary Clipper restricted to the given page, yielding `none`
when nothing of the stroke falls on that page. -/
def convert_stroke_to_page_local (geo : WebtoonGeometry)
    (item : SceneItem) (pageIdx : ℕ) : Option StrokeData :=
  match create_page_path geo item.path pageIdx with
  | some cmds =>
    if path_is_empty cmds then none
    else some { path := cmds, pen := item.pen,
                brush := item.fill.getD ⟨0, 0, 0, 0⟩, width := item.width }
  | none => none

/-- The page-band overlap test of `unload_brush_strokes` (line 68):
the stroke is kept unless its bounding box lies entirely above or
entirely below the band. -/
def stroke_overlaps_band (item : SceneItem) (pageY pageBottom : ℚ) : Bool :=
  let b := path_bounding_rect item.path
  !(decide (b.y + b.h < pageY) || decide (b.y > pageBottom))

/-- The loop body of `unload_brush_strokes` (lines 57-73): a
band-overlapping item whose conversion succeeds is appended to the
collected data and marked for removal. -/
def unload_step (geo : WebtoonGeometry) (pageIdx : ℕ)
    (pageY pageBottom : ℚ) (acc : List StrokeData × List SceneItem)
    (item : SceneItem) : List StrokeData × List SceneItem :=
  if stroke_overlaps_band item pageY pageBottom then
    match convert_stroke_to_page_local geo item pageIdx with
    | some s => (acc.1 ++ [s], acc.2 ++ [item])
    | none => acc
  else acc

/-- `unload_brush_strokes` (lines 52-80): scan the live items, convert
every band-overlapping stroke to a page-local fragment, store the
collected fragments as the page's new `brush_strokes` list (the old
`storage` argument is overwritten, mirroring the assignment on line
76), and remove the converted items from the scene. Returns the new
stored list and the remaining live items. -/
def unload_brush_strokes (geo : WebtoonGeometry) (pageIdx : ℕ)
    (pageY pageBottom : ℚ) (live : List SceneItem)
    (storage : List StrokeData) : List StrokeData × List SceneItem :=
  let _ := storage
  let collected := live.foldl (unload_step geo pageIdx pageY pageBottom) ([], [])
  (collected.1, live.filter (fun it => !(decide (it ∈ collected.2))))

/-- A stored brush-stroke dict as `redistribute_existing_brush_strokes`
and `is_duplicate_brush_stroke` see it: the `path` value may be absent
(`none`), may be a genuine polyline (`qpath`), or may be some other
object without a `boundingRect` attribute (`blob`). -/
inductive PathVal where
  | qpath (cmds : List PathCmd)
  | blob
deriving DecidableEq

/-- A raw fragment record (`\x7b'path'?, 'pen', 'brush', 'width'\x7d`). -/
structure FragRecord where
  path : Option PathVal
  pen : Color
  brush : Color
  width : ℚ
deriving DecidableEq

/-- Replace the `i`-th entry of a list by `f` applied to it (no-op when
`i` is out of range). -/
def modifyAt {α : Type} : List α → ℕ → (α → α) → List α
  | [], _, _ => []
  | a :: t, 0, f => f a :: t
  | a :: t, n + 1, f => a :: modifyAt t n f

/-- Append one fragment to the `i`-th page's stored list. -/
def appendAt (st : List (List FragRecord)) (i : ℕ) (x : FragRecord) :
    List (List FragRecord) :=
  modifyAt st i (fun l => l ++ [x])

/-- One stroke of `redistribute_existing_brush_strokes` (lines
220-261), without the duplicate check: a record with a missing or
non-path `path` is appended unchanged to its original page; otherwise
the path is converted to scene coordinates using the recorded origin
page and distributed to all pages it touches via
`_process_single_brush_stroke`. -/
def redistribute_step (geo : WebtoonGeometry)
    (st : List (List FragRecord)) (f : FragRecord) (pg : ℕ) :
    List (List FragRecord) :=
  match f.path with
  | some (PathVal.qpath cmds) =>
    let scenePath := convert_path_to_scene geo pg cmds
    let results := process_single_brush_stroke geo
      { path := scenePath, pen := f.pen, brush := f.brush,
        width := f.width }
    results.foldl (fun c pr =>
      appendAt c pr.1 { path := some (PathVal.qpath pr.2.path),
                        pen := pr.2.pen, brush := pr.2.brush,
                        width := pr.2.width }) st
  | _ => appendAt st pg f

/-- An input entry of `redistribute_existing_brush_strokes`: the stroke
dict, its original page index, and the Python object identity `id()`
used by the duplicate check. -/
structure RedistEntry where
  frag : FragRecord
  origPage : ℕ
  oid : ℕ
deriving DecidableEq

/-- The loop of `redistribute_existing_brush_strokes` (lines 218-261):
entries whose object id was already processed are skipped, all others
are processed by `redistribute_step`. -/
def redistribute_go (geo : WebtoonGeometry) :
    List RedistEntry → List ℕ → List (List FragRecord) →
    List (List FragRecord)
  | [], _, st => st
  | e :: rest, seen, st =>
    if e.oid ∈ seen then redistribute_go geo rest seen st
    else redistribute_go geo rest (e.oid :: seen)
      (redistribute_step geo st e.frag e.origPage)

/-- `redistribute_existing_brush_strokes` (lines 216-261). -/
def redistribute_existing_brush_strokes (geo : WebtoonGeometry)
    (batch : List RedistEntry) (st : List (List FragRecord)) :
    List (List FragRecord) :=
  redistribute_go geo batch [] st

/-- The bounding rectangle of a record's path, when the record has a
path with a `boundingRect` attribute. -/
def frag_bounds? (f : FragRecord) : Option Rect :=
  match f.path with
  | some (PathVal.qpath cmds) => some (path_bounding_rect cmds)
  | _ => none

/-- `is_duplicate_brush_stroke` (lines 263-290): a candidate without a
usable path is never a duplicate; otherwise it is a duplicate exactly
when some existing record with a usable path has a bounding box within
`margin` of the candidate's in each of x, y, width and height. -/
def is_duplicate_brush_stroke (new : FragRecord)
    (existing : List FragRecord) (margin : ℚ) : Bool :=
  match frag_bounds? new with
  | none => false
  | some nb =>
    existing.any (fun e =>
      match frag_bounds? e with
      | none => false
      | some eb =>
        decide (|nb.x - eb.x| ≤ margin) &&
        decide (|nb.y - eb.y| ≤ margin) &&
        decide (|nb.w - eb.w| ≤ margin) &&
        decide (|nb.h - eb.h| ≤ margin))

/-- One entry of the `all_strokes` list built by
`merge_clipped_brush_strokes` (lines 317-322): the stroke dict, its
page index, and the global (scene) position of its bounding-box
centre. -/
structure MergeEntry where
  data : FragRecord
  pageIdx : ℕ
  center : Pt
deriving DecidableEq

/-- `_are_brush_strokes_mergeable` (lines 354-382): adjacent or equal
pages, vertical centre distance at most 20, horizontal centre distance
at most 50, and identical pen, width and brush. -/
def are_brush_strokes_mergeable (s1 s2 : MergeEntry) : Bool :=
  decide (((s1.pageIdx : ℤ) - (s2.pageIdx : ℤ)).natAbs ≤ 1) &&
  decide (|s1.center.y - s2.center.y| ≤ 20) &&
  decide (|s1.center.x - s2.center.x| ≤ 50) &&
  decide (s1.data.pen = s2.data.pen) &&
  decide (s1.data.width = s2.data.width) &&
  decide (s1.data.brush = s2.data.brush)

/-- The greedy grouping loop of `merge_clipped_brush_strokes` (lines
328-348): the first unused stroke seeds a group and absorbs every
later unused stroke directly mergeable with that seed; the remaining
strokes are grouped recursively. -/
def group_strokes : List MergeEntry → List (List MergeEntry)
  | [] => []
  | s :: rest =>
    (s :: rest.filter (fun e => are_brush_strokes_mergeable s e)) ::
      group_strokes (rest.filter (fun e =>
        !(are_brush_strokes_mergeable s e)))
termination_by l => l.length
decreasing_by
  simp only [List.length_cons]
  exact Nat.lt_succ_of_le (List.length_filter_le _ _)

/-- The path commands a group member contributes to the combined path
in `_merge_brush_stroke_group` (lines 397-411): the member's own
commands when it has a real path, nothing otherwise. -/
def merge_member_path (it : MergeEntry) : List PathCmd :=
  match it.data.path with
  | some (PathVal.qpath cs) => cs
  | _ => []

/-- `_merge_brush_stroke_group` (lines 384-432): for a group of at
least two strokes, concatenate all member paths, compute the average
vertical centre, pick the target page via `page_at`, remove each
member's dict from its page's stored list (first occurrence), and
append the merged record (style of the first member, combined path) to
the target page's list. -/
def merge_brush_stroke_group (geo : WebtoonGeometry)
    (group : List MergeEntry) (states : List (List FragRecord)) :
    List (List FragRecord) :=
  match group with
  | [] => states
  | [_] => states
  | first :: second :: rest =>
    let g := first :: second :: rest
    let combined : List PathCmd :=
      g.foldl (fun acc it => acc ++ merge_member_path it) []
    let avgY := ((g.map (fun it => it.center.y)).sum) / ((g.length : ℚ))
    let target := (page_at geo avgY).getD 0
    let removed := g.foldl (fun st it =>
      modifyAt st it.pageIdx (fun l => l.erase it.data)) states
    modifyAt removed target (fun l =>
      l ++ [{ first.data with path := some (PathVal.qpath combined) }])

/-- Path well-formedness scanner: `opened` records whether a subpath
is open; a `MoveTo` opens one, a `LineTo` is accepted only while one
is open. -/
def wf_aux (opened : Bool) : List PathCmd → Bool
  | [] => true
  | PathCmd.moveTo _ :: rest => wf_aux true rest
  | PathCmd.lineTo _ :: rest => opened && wf_aux opened rest

/-- A command list is a well-formed path when, scanning from a closed
state, every `LineTo` occurs inside a subpath opened by a `MoveTo`. -/
def well_formed_path (cmds : List PathCmd) : Bool := wf_aux false cmds

/-- The first command of a non-empty well-formed path is a `MoveTo`. -/
def first_is_move : List PathCmd → Bool
  | [] => true
  | PathCmd.moveTo _ :: _ => true
  | PathCmd.lineTo _ :: _ => false

/-! Concrete data used by witnesses and counterexamples. -/

/-- Two stacked pages of height 10, full width 10, no horizontal
centering. -/
def geoTwo : WebtoonGeometry := ⟨[0, 10], [10, 10], 10, [none, none]⟩

/-- Three stacked pages of height 10, full width 10. -/
def geoThree : WebtoonGeometry :=
  ⟨[0, 10, 20], [10, 10, 10], 10, [none, none, none]⟩

/-- Four stacked pages with boundaries at 200, 400, 500, 600, width
200. -/
def geoFour : WebtoonGeometry :=
  ⟨[0, 200, 400, 500], [200, 200, 100, 100], 200, [none, none, none, none]⟩

/-- A solid pen colour (`#ff000000`). -/
def penBlack : Color := ⟨255, 0, 0, 0⟩

/-- The fully transparent colour (`#00000000`, no fill). -/
def noFill : Color := ⟨0, 0, 0, 0⟩

/-- A vertical stroke whose middle vertex lies exactly on the boundary
between the two pages of `geoTwo`. -/
def strokeBoundary : StrokeData :=
  { path := [PathCmd.moveTo ⟨5, 5⟩, PathCmd.lineTo ⟨5, 10⟩,
             PathCmd.lineTo ⟨5, 15⟩],
    pen := penBlack, brush := noFill, width := 3 }

/-- A stroke of `geoThree` whose second segment jumps from page 0 to
page 2, crossing page 1 entirely between two samples, and whose last
vertex lies on page 1. -/
def strokeCross : StrokeData :=
  { path := [PathCmd.moveTo ⟨5, 5⟩, PathCmd.lineTo ⟨5, 25⟩,
             PathCmd.lineTo ⟨5, 15⟩],
    pen := penBlack, brush := noFill, width := 3 }

/-- A fragment on page 2 of `geoFour` whose global bounding-box centre
is `(100, 498)`. -/
def fragLeft : FragRecord :=
  { path := some (PathVal.qpath [PathCmd.moveTo ⟨90, 90⟩,
                                 PathCmd.lineTo ⟨110, 106⟩]),
    pen := penBlack, brush := noFill, width := 4 }

/-- A fragment on page 3 of `geoFour` whose global bounding-box centre
is `(102, 503)`. -/
def fragRight : FragRecord :=
  { path := some (PathVal.qpath [PathCmd.moveTo ⟨92, 0⟩,
                                 PathCmd.lineTo ⟨112, 6⟩]),
    pen := penBlack, brush := noFill, width := 4 }

/-- The merge-scan entry of `fragLeft`. -/
def entryLeft : MergeEntry := ⟨fragLeft, 2, ⟨100, 498⟩⟩

/-- The merge-scan entry of `fragRight`. -/
def entryRight : MergeEntry := ⟨fragRight, 3, ⟨102, 503⟩⟩

/-- The stored lists of the four pages of `geoFour` before merging. -/
def statesFour : List (List FragRecord) := [[], [], [fragLeft], [fragRight]]

/-- A fragment whose bounding box is `(0, 0, 10, 10)`. -/
def fragDupA : FragRecord :=
  { path := some (PathVal.qpath [PathCmd.moveTo ⟨0, 0⟩,
                                 PathCmd.lineTo ⟨10, 10⟩]),
    pen := penBlack, brush := noFill, width := 3 }

/-- A fragment whose bounding box is `(6, 0, 10, 10)`: shifted 6 units
to the right of `fragDupA`, more than a margin of 5. -/
def fragDupB : FragRecord :=
  { path := some (PathVal.qpath [PathCmd.moveTo ⟨6, 0⟩,
                                 PathCmd.lineTo ⟨16, 10⟩]),
    pen := penBlack, brush := noFill, width := 3 }

/-- Merge-scan entry with centre `(0, 0)` on page 0. -/
def entryChainA : MergeEntry := ⟨fragDupA, 0, ⟨0, 0⟩⟩

/-- Merge-scan entry with centre `(0, 20)` on page 0: mergeable with
both `entryChainA` and `entryChainC`. -/
def entryChainB : MergeEntry := ⟨fragDupA, 0, ⟨0, 20⟩⟩

/-- Merge-scan entry with centre `(0, 40)` on page 0: mergeable with
`entryChainB` but 40 vertical units from `entryChainA`. -/
def entryChainC : MergeEntry := ⟨fragDupA, 0, ⟨0, 40⟩⟩

/-- A live scene item lying inside page 0 of `geoTwo`. -/
def sceneItemMid : SceneItem :=
  { path := [PathCmd.moveTo ⟨5, 2⟩, PathCmd.lineTo ⟨5, 8⟩],
    pen := penBlack, fill := none, width := 3 }

/-- A fragment already stored for page 0 before an eviction. -/
def oldFrag : StrokeData :=
  { path := [PathCmd.moveTo ⟨1, 1⟩, PathCmd.lineTo ⟨2, 2⟩],
    pen := penBlack, brush := noFill, width := 7 }

/-- A small valid stored fragment used in the redistribute batch: a
short diagonal at horizontal offset `k`. -/
def smallFrag (k : ℚ) : FragRecord :=
  { path := some (PathVal.qpath [PathCmd.moveTo ⟨k, 1⟩,
                                 PathCmd.lineTo ⟨k + 1, 2⟩]),
    pen := penBlack, brush := noFill, width := 2 }

/-- The record with a missing path used as fragment number 5 of the
redistribute batch. -/
def badFrag : FragRecord :=
  { path := none, pen := penBlack, brush := noFill, width := 2 }

/-- The redistribute-batch entry of `badFrag`: original page 1,
object id 105. -/
def badEntry : RedistEntry := ⟨badFrag, 1, 105⟩

/-- A batch of 10 fragments for `redistribute_existing_brush_strokes`
on `geoTwo`: all valid except number 5, which has a missing path. -/
def batchTen : List RedistEntry :=
  [⟨smallFrag 1, 0, 101⟩, ⟨smallFrag 2, 1, 102⟩, ⟨smallFrag 3, 0, 103⟩,
   ⟨smallFrag 4, 1, 104⟩, badEntry, ⟨smallFrag 6, 0, 106⟩,
   ⟨smallFrag 7, 1, 107⟩, ⟨smallFrag 8, 0, 108⟩, ⟨smallFrag 9, 1, 109⟩,
   ⟨smallFrag 10, 0, 110⟩]

/-- The empty two-page container the redistribute batch is distributed
into. -/
def statesTwo : List (List FragRecord) := [[], []]

/-! ### Well-formedness of clipped fragments -/

lemma wf_aux_mono (l : List PathCmd) : ∀ b : Bool,
    wf_aux false l = true → wf_aux b l = true := by
  induction l with
  | nil => intro b _; rfl
  | cons c rest ih =>
    intro b h
    cases c with
    | moveTo p => simpa [wf_aux] using h
    | lineTo p => simp [wf_aux] at h

lemma cpp_step_wf (geo : WebtoonGeometry) (pageIdx : ℕ) (b : Rect)
    (prev : Option Pt) (started : Bool) (c : PathCmd) (l : List PathCmd)
    (hl : wf_aux (cpp_step geo pageIdx b prev started c).2.1 l = true) :
    wf_aux started ((cpp_step geo pageIdx b prev started c).1 ++ l) = true := by
  cases hon : point_on_page b c.point with
  | true =>
    cases hmv : (c.isMove || !started) with
    | true =>
      simp only [cpp_step, hon, hmv] at hl ⊢
      simpa [wf_aux] using hl
    | false =>
      have hst : started = true := by
        cases started
        · simp at hmv
        · rfl
      subst hst
      simp only [cpp_step, hon, hmv] at hl ⊢
      simpa [wf_aux] using hl
  | false =>
    cases hst : started with
    | false =>
      cases prev with
      | none =>
        simp only [cpp_step, hon, hst] at hl ⊢
        simpa [wf_aux] using hl
      | some pp =>
        cases hpp : point_on_page b pp with
        | true =>
          simp only [cpp_step, hon, hst, hpp] at hl ⊢
          simpa [wf_aux] using hl
        | false =>
          cases hq : find_page_boundary_intersection geo pp c.point b pageIdx with
          | none =>
            simp only [cpp_step, hon, hst, hpp, hq] at hl ⊢
            simpa [wf_aux] using hl
          | some q =>
            simp only [cpp_step, hon, hst, hpp, hq] at hl ⊢
            simpa [wf_aux] using hl
    | true =>
      cases prev with
      | none =>
        simp only [cpp_step, hon, hst] at hl ⊢
        simpa [wf_aux] using wf_aux_mono l true hl
      | some pp =>
        cases hpp : point_on_page b pp with
        | true =>
          cases hq : find_page_boundary_intersection geo pp c.point b pageIdx with
          | none =>
            simp only [cpp_step, hon, hst, hpp, hq] at hl ⊢
            simpa [wf_aux] using wf_aux_mono l true hl
          | some q =>
            simp only [cpp_step, hon, hst, hpp, hq] at hl ⊢
            simpa [wf_aux] using wf_aux_mono l true hl
        | false =>
          simp only [cpp_step, hon, hst, hpp] at hl ⊢
          simpa [wf_aux] using wf_aux_mono l true hl

lemma cpp_aux_wf (geo : WebtoonGeometry) (pageIdx : ℕ) (b : Rect) :
    ∀ (elems : List PathCmd) (prev : Option Pt) (started : Bool),
    wf_aux started (cpp_aux geo pageIdx b prev started elems).1 = true := by
  intro elems
  induction elems with
  | nil => intro prev started; rfl
  | cons c rest ih =>
    intro prev started
    have hstep := cpp_step_wf geo pageIdx b prev started c
      (cpp_aux geo pageIdx b (some c.point)
        (cpp_step geo pageIdx b prev started c).2.1 rest).1
      (ih (some c.point) (cpp_step geo pageIdx b prev started c).2.1)
    simpa [cpp_aux] using hstep

/-- Claim C10: every page-local fragment returned by the Boundary
Clipper (`_create_page_path`) is a well-formed path: its first command
is a `MoveTo`, and a `LineTo` is only emitted while a subpath opened by
a `MoveTo` is open. -/
theorem claim_c10 (geo : WebtoonGeometry) (elems : List PathCmd) (i : ℕ)
    (cmds : List PathCmd) (h : create_page_path geo elems i = some cmds) :
    well_formed_path cmds = true ∧ first_is_move cmds = true := by
  have hwf : well_formed_path cmds = true := by
    unfold create_page_path at h
    cases hb : page_bounds geo i with
    | none => rw [hb] at h; exact absurd h (by simp)
    | some b =>
      rw [hb] at h
      cases hv : (cpp_aux geo i b none false elems).2 with
      | false => simp [hv] at h
      | true =>
        simp only [hv, if_true] at h
        obtain rfl : (cpp_aux geo i b none false elems).1 = cmds :=
          Option.some.inj h
        exact cpp_aux_wf geo i b elems none false
  refine ⟨hwf, ?_⟩
  cases cmds with
  | nil => rfl
  | cons c rest =>
    cases c with
    | moveTo p => rfl
    | lineTo p => simp [well_formed_path, wf_aux] at hwf

/-- Witness for claim C10: the fragment that `_create_page_path`
produces for page 0 of `geoTwo` from `strokeBoundary` is well
formed. -/
theorem claim_c10_witness :
    well_formed_path [PathCmd.moveTo ⟨5, 5⟩, PathCmd.lineTo ⟨5, 10⟩,
      PathCmd.lineTo ⟨5, 10⟩] = true ∧
    first_is_move [PathCmd.moveTo ⟨5, 5⟩, PathCmd.lineTo ⟨5, 10⟩,
      PathCmd.lineTo ⟨5, 10⟩] = true :=
  claim_c10 geoTwo strokeBoundary.path 0 _ (by with_unfolding_all decide)

/-- Claim C9: a stroke whose vertex list has fewer than 2 points
produces no fragments for any page. -/
theorem claim_c9 (geo : WebtoonGeometry) (stroke : StrokeData)
    (h : stroke.path.length < 2) :
    process_single_brush_stroke geo stroke = [] := by
  unfold process_single_brush_stroke
  rw [List.filterMap_eq_nil_iff]
  intro i _
  match hpath : stroke.path, h with
  | [], _ =>
    cases hb : page_bounds geo i with
    | none => simp [create_page_path, hb]
    | some b => simp [create_page_path, hb, cpp_aux]
  | [c], _ =>
    cases hb : page_bounds geo i with
    | none => simp [create_page_path, hb]
    | some b =>
      cases hon : point_on_page b c.point with
      | true =>
        simp [create_page_path, hb, cpp_aux, cpp_step, hon, path_is_empty]
      | false =>
        simp [create_page_path, hb, cpp_aux, cpp_step, hon]
  | c :: d :: t, hlen =>
    simp only [List.length_cons] at hlen
    exact absurd hlen (by omega)

/-- Witness for claim C9: a one-point stroke on `geoTwo` yields no
fragments. -/
theorem claim_c9_witness :
    ({ path := [PathCmd.moveTo ⟨5, 5⟩], pen := penBlack, brush := noFill,
       width := 3 } : StrokeData).path.length < 2 ∧
    process_single_brush_stroke geoTwo
      { path := [PathCmd.moveTo ⟨5, 5⟩], pen := penBlack, brush := noFill,
        width := 3 } = [] :=
  ⟨by decide,
   claim_c9 geoTwo
     { path := [PathCmd.moveTo ⟨5, 5⟩], pen := penBlack, brush := noFill,
       width := 3 } (by decide)⟩

/-- Claim C7: `load_brush_strokes` adds one scene item per stored
fragment, pairwise: pen colour and width are preserved, the path is
the scene-coordinate conversion of the stored path, and the fill is
enabled exactly for the reserved mask sentinel `#80ff0000` — any other
stored fill value yields an item with no visible fill. -/
theorem claim_c7 (geo : WebtoonGeometry) (strokes : List StrokeData)
    (pageIdx : ℕ) :
    List.Forall₂ (fun s it =>
      it.pen = s.pen ∧ it.width = s.width ∧
      it.path = convert_path_to_scene geo pageIdx s.path ∧
      (s.brush = mask_sentinel → it.fill = some s.brush) ∧
      (s.brush ≠ mask_sentinel → it.fill = none))
      strokes (load_brush_strokes geo strokes pageIdx) := by
  induction strokes with
  | nil => exact List.Forall₂.nil
  | cons s rest ih =>
    refine List.Forall₂.cons ⟨rfl, rfl, rfl, ?_, ?_⟩ ih
    · intro hs
      simp only [load_brush_strokes]
      rw [if_pos hs]
    · intro hs
      simp only [load_brush_strokes]
      rw [if_neg hs]

/-- Claim C8: a fragment with a valid path is always a duplicate of
itself for any margin at least 0, and whenever one of the four
bounding-box quantities (x, y, width, height) of another fragment
differs from the candidate's by strictly more than the margin, the
candidate is not a duplicate of that fragment. -/
theorem claim_c8 (f g : FragRecord) (cf cg : List PathCmd) (margin : ℚ)
    (hf : f.path = some (PathVal.qpath cf))
    (hg : g.path = some (PathVal.qpath cg))
    (hm : 0 ≤ margin) :
    is_duplicate_brush_stroke f [f] margin = true ∧
    ((margin < |(path_bounding_rect cf).x - (path_bounding_rect cg).x| ∨
      margin < |(path_bounding_rect cf).y - (path_bounding_rect cg).y| ∨
      margin < |(path_bounding_rect cf).w - (path_bounding_rect cg).w| ∨
      margin < |(path_bounding_rect cf).h - (path_bounding_rect cg).h|) →
      is_duplicate_brush_stroke f [g] margin = false) := by
  constructor
  · simp [is_duplicate_brush_stroke, frag_bounds?, hf, sub_self, abs_zero, hm]
  · intro hd
    simp only [is_duplicate_brush_stroke, frag_bounds?, hf, hg,
      List.any_cons, List.any_nil, Bool.or_false]
    rcases hd with h | h | h | h
    · rw [decide_eq_false (not_le.mpr h)]
      simp
    · rw [decide_eq_false (not_le.mpr h)]
      simp
    · rw [decide_eq_false (not_le.mpr h)]
      simp
    · rw [decide_eq_false (not_le.mpr h)]
      simp

/-- Witness for claim C8: with margin 5, `fragDupA` is a duplicate of
itself and not a duplicate of `fragDupB`, whose bounding box is 6
units to the right. -/
theorem claim_c8_witness :
    is_duplicate_brush_stroke fragDupA [fragDupA] 5 = true ∧
    is_duplicate_brush_stroke fragDupA [fragDupB] 5 = false := by
  have h := claim_c8 fragDupA fragDupB
    [PathCmd.moveTo ⟨0, 0⟩, PathCmd.lineTo ⟨10, 10⟩]
    [PathCmd.moveTo ⟨6, 0⟩, PathCmd.lineTo ⟨16, 10⟩]
    5 rfl rfl (by norm_num)
  exact ⟨h.1, h.2 (Or.inl (by with_unfolding_all decide))⟩

/-! ### Eviction (claim C1) -/

lemma unload_foldl (geo : WebtoonGeometry) (pageIdx : ℕ)
    (pageY pageBottom : ℚ) :
    ∀ (live : List SceneItem) (d : List StrokeData) (r : List SceneItem),
    live.foldl (unload_step geo pageIdx pageY pageBottom) (d, r) =
      (d ++ (live.filter (fun it =>
          stroke_overlaps_band it pageY pageBottom)).filterMap
        (fun it => convert_stroke_to_page_local geo it pageIdx),
       r ++ live.filter (fun it =>
          stroke_overlaps_band it pageY pageBottom &&
          (convert_stroke_to_page_local geo it pageIdx).isSome)) := by
  intro live
  induction live with
  | nil => intro d r; simp
  | cons item rest ih =>
    intro d r
    cases hov : stroke_overlaps_band item pageY pageBottom with
    | false =>
      simp only [List.foldl_cons, unload_step, hov, Bool.false_eq_true,
        if_false, List.filter_cons, Bool.false_and]
      exact ih d r
    | true =>
      cases hcv : convert_stroke_to_page_local geo item pageIdx with
      | none =>
        have := ih d r
        simp only [List.foldl_cons, unload_step, hov, if_true, hcv,
          List.filter_cons, Bool.true_and, Option.isSome_none,
          List.filterMap_cons]
        simpa [hcv] using this
      | some s =>
        have := ih (d ++ [s]) (r ++ [item])
        simp only [List.foldl_cons, unload_step, hov, if_true, hcv,
          List.filter_cons, Bool.true_and, Option.isSome_some,
          List.filterMap_cons]
        simpa [hcv, List.append_assoc] using this

/-- Claim C1 (amended): `unload_brush_strokes` stores for the page
exactly the page-local conversions of the band-overlapping live
strokes — *replacing* the previously stored list rather than appending
to it (the result does not depend on `storage`) — and removes from the
live canvas exactly the strokes that were actually converted. -/
theorem claim_c1_amended (geo : WebtoonGeometry) (pageIdx : ℕ)
    (pageY pageBottom : ℚ) (live : List SceneItem)
    (storage : List StrokeData) :
    (unload_brush_strokes geo pageIdx pageY pageBottom live storage).1 =
      (live.filter (fun it =>
          stroke_overlaps_band it pageY pageBottom)).filterMap
        (fun it => convert_stroke_to_page_local geo it pageIdx) ∧
    (unload_brush_strokes geo pageIdx pageY pageBottom live storage).2 =
      live.filter (fun it =>
        !(stroke_overlaps_band it pageY pageBottom &&
          (convert_stroke_to_page_local geo it pageIdx).isSome)) := by
  have hfold := unload_foldl geo pageIdx pageY pageBottom live [] []
  constructor
  · simp only [unload_brush_strokes, hfold, List.nil_append]
  · simp only [unload_brush_strokes, hfold, List.nil_append]
    refine List.filter_congr ?_
    intro x hx
    cases hp : (stroke_overlaps_band x pageY pageBottom &&
        (convert_stroke_to_page_local geo x pageIdx).isSome) with
    | true => simp [List.mem_filter, hx, hp]
    | false => simp [List.mem_filter, hp]

/-- Counterexample for claim C1: evicting page 0 of `geoTwo` with one
overlapping live stroke and a previously stored fragment `oldFrag`
yields a stored list that no longer contains `oldFrag` — the stored
fragments are replaced, not appended to. -/
theorem claim_c1_counterexample :
    (unload_brush_strokes geoTwo 0 0 10 [sceneItemMid] [oldFrag]).1 =
      [{ path := [PathCmd.moveTo ⟨5, 2⟩, PathCmd.lineTo ⟨5, 8⟩],
         pen := penBlack, brush := noFill, width := 3 }] ∧
    oldFrag ∉ (unload_brush_strokes geoTwo 0 0 10 [sceneItemMid] [oldFrag]).1 := by
  with_unfolding_all decide

/-! ### Boundary-vertex ownership (claim C2) -/

/-- Counterexample for claim C2: the vertex `(5, 10)` of
`strokeBoundary` lies exactly on the boundary between the two pages of
`geoTwo`, and its command is emitted into *both* pages' fragments —
into page 0's fragment as a `LineTo` at its page-0 local image and
into page 1's fragment as a `MoveTo` at its page-1 local image —
because the containment test of `_create_page_path` is closed at both
ends, not half-open. -/
theorem claim_c2_counterexample :
    process_single_brush_stroke geoTwo strokeBoundary =
      [(0, { path := [PathCmd.moveTo ⟨5, 5⟩, PathCmd.lineTo ⟨5, 10⟩,
                      PathCmd.lineTo ⟨5, 10⟩],
             pen := penBlack, brush := noFill, width := 3 }),
       (1, { path := [PathCmd.moveTo ⟨5, 0⟩, PathCmd.lineTo ⟨5, 5⟩],
             pen := penBlack, brush := noFill, width := 3 })] ∧
    scene_to_page_local geoTwo 0 ⟨5, 10⟩ = ⟨5, 10⟩ ∧
    scene_to_page_local geoTwo 1 ⟨5, 10⟩ = ⟨5, 0⟩ ∧
    PathCmd.lineTo ⟨5, 10⟩ ∈ [PathCmd.moveTo ⟨5, 5⟩, PathCmd.lineTo ⟨5, 10⟩,
      PathCmd.lineTo ⟨5, 10⟩] ∧
    PathCmd.moveTo ⟨5, 0⟩ ∈ [PathCmd.moveTo ⟨5, 0⟩, PathCmd.lineTo ⟨5, 5⟩] := by
  with_unfolding_all decide

/-- Claim C2 (amended): a vertex lying exactly on the shared boundary
of two vertically adjacent pages passes the closed containment test
`point_on_page` of *both* pages (the code tests
`top <= y <= bottom` on each page, not the half-open interval), so its
command can be emitted into both neighbours' fragments; only the
touched-set classification `page_at` is half-open. -/
theorem claim_c2_amended (geo : WebtoonGeometry) (i : ℕ) (b b2 : Rect)
    (v : Pt)
    (hb : page_bounds geo i = some b)
    (hb2 : page_bounds geo (i + 1) = some b2)
    (hh : 0 ≤ b.h) (hh2 : 0 ≤ b2.h)
    (hy : v.y = b.y + b.h) (hy2 : b2.y = v.y)
    (hx1 : b.x ≤ v.x) (hx2 : v.x ≤ b.x + b.w)
    (hx3 : b2.x ≤ v.x) (hx4 : v.x ≤ b2.x + b2.w) :
    point_on_page b v = true ∧ point_on_page b2 v = true := by
  constructor
  · simp only [point_on_page, Bool.and_eq_true, decide_eq_true_eq]
    exact ⟨⟨⟨hx1, hx2⟩, by rw [hy]; linarith⟩, le_of_eq hy⟩
  · simp only [point_on_page, Bool.and_eq_true, decide_eq_true_eq]
    exact ⟨⟨⟨hx3, hx4⟩, le_of_eq hy2⟩, by rw [← hy2]; linarith⟩

/-- Witness for the amended claim C2: the boundary vertex `(5, 10)` of
`geoTwo` is inside both page 0's and page 1's rectangle under the
code's closed containment test. -/
theorem claim_c2_amended_witness :
    point_on_page ⟨0, 0, 10, 10⟩ ⟨5, 10⟩ = true ∧
    point_on_page ⟨0, 10, 10, 10⟩ ⟨5, 10⟩ = true :=
  claim_c2_amended geoTwo 0 ⟨0, 0, 10, 10⟩ ⟨0, 10, 10, 10⟩ ⟨5, 10⟩
    (by with_unfolding_all decide) (by with_unfolding_all decide)
    (by norm_num) (by norm_num) (by norm_num) (by norm_num)
    (by norm_num) (by norm_num) (by norm_num) (by norm_num)

/-! ### Entry-and-exit crossing segments (claim C3) -/

/-- Counterexample for claim C3: in `geoThree`, the segment from
`(5, 5)` to `(5, 25)` of `strokeCross` has both endpoints outside page
1 yet crosses it. The fragment the clipper produces for page 1 is
`MoveTo (5, 0), LineTo (5, 5)`: a `MoveTo` at the entry intersection
(global `(5, 10)`, local `(5, 0)`) but *no* `LineTo` at the exit
intersection (global `(5, 20)`, local `(5, 10)`) — the claimed
entry-`MoveTo`/exit-`LineTo` pair is not emitted. -/
theorem claim_c3_counterexample :
    create_page_path geoThree strokeCross.path 1 =
      some [PathCmd.moveTo ⟨5, 0⟩, PathCmd.lineTo ⟨5, 5⟩] ∧
    point_on_page ⟨0, 10, 10, 10⟩ ⟨5, 5⟩ = false ∧
    point_on_page ⟨0, 10, 10, 10⟩ ⟨5, 25⟩ = false ∧
    find_page_boundary_intersection geoThree ⟨5, 5⟩ ⟨5, 25⟩
      ⟨0, 10, 10, 10⟩ 1 = some ⟨5, 0⟩ ∧
    PathCmd.lineTo ⟨5, 10⟩ ∉ [PathCmd.moveTo ⟨5, 0⟩, PathCmd.lineTo ⟨5, 5⟩] := by
  with_unfolding_all decide

/-- Claim C3 (amended): for a segment whose endpoints both lie outside
page `P` while the segment crosses `P`'s rectangle, the clipper emits
only a `MoveTo` at the single computed boundary intersection and opens
a subpath there; no `LineTo` at the exit intersection is emitted for
that segment. -/
theorem claim_c3_amended (geo : WebtoonGeometry) (pageIdx : ℕ) (b : Rect)
    (pp : Pt) (c : PathCmd) (q : Pt)
    (hpp : point_on_page b pp = false)
    (hc : point_on_page b c.point = false)
    (hq : find_page_boundary_intersection geo pp c.point b pageIdx = some q) :
    cpp_step geo pageIdx b (some pp) false c =
      ([PathCmd.moveTo q], true, true) := by
  simp [cpp_step, hc, hpp, hq]

/-- Witness for the amended claim C3: the crossing segment of
`strokeCross` over page 1 of `geoThree` yields exactly one `MoveTo` at
the entry intersection. -/
theorem claim_c3_amended_witness :
    cpp_step geoThree 1 ⟨0, 10, 10, 10⟩ (some ⟨5, 5⟩) false
      (PathCmd.lineTo ⟨5, 25⟩) = ([PathCmd.moveTo ⟨5, 0⟩], true, true) :=
  claim_c3_amended geoThree 1 ⟨0, 10, 10, 10⟩ ⟨5, 5⟩
    (PathCmd.lineTo ⟨5, 25⟩) ⟨5, 0⟩
    (by with_unfolding_all decide) (by with_unfolding_all decide)
    (by with_unfolding_all decide)

/-! ### Greedy grouping (claim C4) -/

/-- Counterexample for claim C4: `entryChainA`-`entryChainB` and
`entryChainB`-`entryChainC` are mergeable, but `entryChainA` and
`entryChainC` are not (vertical centre distance 40 > 20). The grouping
of `merge_clipped_brush_strokes` puts `entryChainA` and `entryChainB`
in one group and leaves `entryChainC` in a singleton: it does not form
the connected component of the mergeable relation. -/
theorem claim_c4_counterexample :
    are_brush_strokes_mergeable entryChainA entryChainB = true ∧
    are_brush_strokes_mergeable entryChainB entryChainC = true ∧
    are_brush_strokes_mergeable entryChainA entryChainC = false ∧
    group_strokes [entryChainA, entryChainB, entryChainC] =
      [[entryChainA, entryChainB], [entryChainC]] ∧
    entryChainC ∉ [entryChainA, entryChainB] := by
  with_unfolding_all decide

/-- Claim C4 (amended): the grouping step forms greedy star-shaped
clusters, first-seen-first-grouped: every non-seed member of a group
is *directly* mergeable with the group's first-seen seed; a fragment
that is mergeable only with a non-seed member joins no such group. -/
theorem claim_c4_amended (entries g : List MergeEntry) (s e : MergeEntry)
    (hg : g ∈ group_strokes entries) (hs : g.head? = some s)
    (he : e ∈ g.tail) :
    are_brush_strokes_mergeable s e = true := by
  induction entries using group_strokes.induct with
  | case1 => simp [group_strokes] at hg
  | case2 s' rest ih =>
    rw [group_strokes] at hg
    rcases List.mem_cons.mp hg with h | h
    · subst h
      simp only [List.head?_cons, Option.some.injEq] at hs
      subst hs
      simp only [List.tail_cons] at he
      exact List.of_mem_filter he
    · exact ih h

/-- Witness for the amended claim C4: in the chain
`[entryChainA, entryChainB, entryChainC]`, the non-seed member
`entryChainB` of the first group is directly mergeable with its seed
`entryChainA`. -/
theorem claim_c4_amended_witness :
    are_brush_strokes_mergeable entryChainA entryChainB = true :=
  claim_c4_amended [entryChainA, entryChainB, entryChainC]
    [entryChainA, entryChainB] entryChainA entryChainB
    (by with_unfolding_all decide) rfl (by with_unfolding_all decide)

/-! ### Merging a group (claim C5) -/

lemma length_modifyAt {α : Type} (l : List α) :
    ∀ (i : ℕ) (f : α → α), (modifyAt l i f).length = l.length := by
  induction l with
  | nil => intro i f; rfl
  | cons a t ih =>
    intro i f
    cases i with
    | zero => rfl
    | succ n => simp [modifyAt, ih]

lemma getD_modifyAt {α : Type} (l : List α) (d : α) :
    ∀ (i p : ℕ) (f : α → α),
    (modifyAt l i f).getD p d =
      if p = i ∧ i < l.length then f (l.getD p d) else l.getD p d := by
  induction l with
  | nil => intro i p f; simp [modifyAt]
  | cons a t ih =>
    intro i p f
    cases i with
    | zero =>
      cases p with
      | zero => simp [modifyAt]
      | succ pq => simp [modifyAt]
    | succ n =>
      cases p with
      | zero => simp [modifyAt]
      | succ pq =>
        have hiff : (pq + 1 = n + 1 ∧ n + 1 < t.length + 1) ↔
            (pq = n ∧ n < t.length) := by omega
        simp only [modifyAt, List.getD_cons_succ, List.length_cons]
        rw [ih]
        by_cases h : pq = n ∧ n < t.length
        · rw [if_pos h, if_pos (hiff.mpr h)]
        · rw [if_neg h, if_neg (fun hc => h (hiff.mp hc))]

lemma modifyAt_erase_getD (states : List (List FragRecord)) (k p : ℕ)
    (x : FragRecord) :
    (modifyAt states k (fun l => l.erase x)).getD p [] =
      if k = p then (states.getD p []).erase x else states.getD p [] := by
  rw [getD_modifyAt]
  by_cases h1 : p = k
  · subst h1
    by_cases h2 : p < states.length
    · rw [if_pos ⟨rfl, h2⟩, if_pos rfl]
    · have hd : states.getD p [] = [] :=
        List.getD_eq_default _ _ (le_of_not_lt h2)
      rw [if_neg (fun hc => h2 hc.2), if_pos rfl, hd, List.erase_nil]
  · rw [if_neg (fun hc => h1 hc.1), if_neg (fun hk => h1 hk.symm)]

lemma erase_foldl_length (g : List MergeEntry) :
    ∀ states : List (List FragRecord),
    (g.foldl (fun st it =>
      modifyAt st it.pageIdx (fun l => l.erase it.data)) states).length =
    states.length := by
  induction g with
  | nil => intro states; rfl
  | cons it rest ih =>
    intro states
    rw [List.foldl_cons, ih, length_modifyAt]

lemma erase_foldl_getD (g : List MergeEntry) :
    ∀ (states : List (List FragRecord)) (p : ℕ),
    (g.foldl (fun st it =>
        modifyAt st it.pageIdx (fun l => l.erase it.data)) states).getD p [] =
      g.foldl (fun l it => if it.pageIdx = p then l.erase it.data else l)
        (states.getD p []) := by
  induction g with
  | nil => intro states p; rfl
  | cons it rest ih =>
    intro states p
    rw [List.foldl_cons, List.foldl_cons, ih, modifyAt_erase_getD]

lemma foldl_append_join (g : List MergeEntry) :
    ∀ acc : List PathCmd,
    g.foldl (fun acc it => acc ++ merge_member_path it) acc =
      acc ++ (g.map merge_member_path).join := by
  induction g with
  | nil => intro acc; simp
  | cons it rest ih =>
    intro acc
    rw [List.foldl_cons, ih]
    simp [List.append_assoc]

/-- Claim C5: merging a group of at least two fragments removes each
member's dict from its page's stored list and appends exactly one
merged fragment — whose path is the concatenation of all member paths
in group order and whose style is copied from the first member — to
the page returned by `page_at` applied to the group's average vertical
centre. The conclusion characterises every page `p` of the resulting
storage. -/
theorem claim_c5 (geo : WebtoonGeometry) (first second : MergeEntry)
    (rest : List MergeEntry) (states : List (List FragRecord)) (t p : ℕ)
    (ht : page_at geo
        ((((first :: second :: rest).map (fun it => it.center.y)).sum) /
          (((first :: second :: rest).length : ℚ))) = some t)
    (hlt : t < states.length) :
    (merge_brush_stroke_group geo (first :: second :: rest) states).getD p [] =
      ((first :: second :: rest).foldl (fun l it =>
          if it.pageIdx = p then l.erase it.data else l) (states.getD p []))
      ++ (if p = t then
            [{ first.data with path := some (PathVal.qpath
                (((first :: second :: rest).map merge_member_path).join)) }]
          else []) := by
  simp only [merge_brush_stroke_group]
  rw [ht]
  simp only [Option.getD_some]
  rw [getD_modifyAt]
  have hlen := erase_foldl_length (first :: second :: rest) states
  by_cases hp : p = t
  · subst hp
    rw [if_pos ⟨rfl, by rw [hlen]; exact hlt⟩, erase_foldl_getD, if_pos rfl]
    rw [foldl_append_join]
    simp
  · rw [if_neg (fun hc => hp hc.1), erase_foldl_getD, if_neg hp,
      List.append_nil]

/-- Witness for claim C5: the two fragments of the spec's concrete
scenario — page-2 centre `(100, 498)` and page-3 centre `(102, 503)`,
identical pen, width 4, no fill — are mergeable, their average centre
is 500.5, `page_at` maps 500.5 to page 3, and merging produces exactly
one combined fragment on page 3 while page 2 loses its member. -/
theorem claim_c5_witness :
    are_brush_strokes_mergeable entryLeft entryRight = true ∧
    page_at geoFour (500.5 : ℚ) = some 3 ∧
    (merge_brush_stroke_group geoFour [entryLeft, entryRight]
        statesFour).getD 3 [] =
      [{ path := some (PathVal.qpath [PathCmd.moveTo ⟨90, 90⟩,
            PathCmd.lineTo ⟨110, 106⟩, PathCmd.moveTo ⟨92, 0⟩,
            PathCmd.lineTo ⟨112, 6⟩]),
         pen := penBlack, brush := noFill, width := 4 }] ∧
    (merge_brush_stroke_group geoFour [entryLeft, entryRight]
        statesFour).getD 2 [] = [] := by
  refine ⟨by with_unfolding_all decide, by with_unfolding_all decide, ?_, ?_⟩
  · rw [claim_c5 geoFour entryLeft entryRight [] statesFour 3 3
      (by with_unfolding_all decide) (by with_unfolding_all decide)]
    with_unfolding_all decide
  · rw [claim_c5 geoFour entryLeft entryRight [] statesFour 3 2
      (by with_unfolding_all decide) (by with_unfolding_all decide)]
    with_unfolding_all decide

/-! ### Redistribution isolation (claim C6) -/

lemma redistribute_go_eq_foldl (geo : WebtoonGeometry) :
    ∀ (batch : List RedistEntry) (seen : List ℕ)
      (st : List (List FragRecord)),
    (∀ x ∈ batch, x.oid ∉ seen) →
    (batch.map RedistEntry.oid).Nodup →
    redistribute_go geo batch seen st =
      batch.foldl (fun c x => redistribute_step geo c x.frag x.origPage) st := by
  intro batch
  induction batch with
  | nil => intro seen st _ _; rfl
  | cons e rest ih =>
    intro seen st hfresh hnd
    have he : e.oid ∉ seen := hfresh e (List.mem_cons_self _ _)
    rw [redistribute_go, if_neg he, List.foldl_cons]
    rw [List.map_cons, List.nodup_cons] at hnd
    apply ih
    · intro x hx
      simp only [List.mem_cons]
      rintro (h | h)
      · exact hnd.1 (h ▸ List.mem_map_of_mem RedistEntry.oid hx)
      · exact hfresh x (List.mem_cons_of_mem _ hx) h
    · exact hnd.2

lemma length_appendAt (st : List (List FragRecord)) (i : ℕ)
    (x : FragRecord) : (appendAt st i x).length = st.length :=
  length_modifyAt st i _

lemma length_appendAt_foldl (l : List (ℕ × StrokeData)) :
    ∀ st : List (List FragRecord),
    (l.foldl (fun c pr =>
      appendAt c pr.1 { path := some (PathVal.qpath pr.2.path),
                        pen := pr.2.pen, brush := pr.2.brush,
                        width := pr.2.width }) st).length = st.length := by
  induction l with
  | nil => intro st; rfl
  | cons pr rest ih =>
    intro st
    rw [List.foldl_cons, ih, length_appendAt]

lemma length_redistribute_step (geo : WebtoonGeometry)
    (st : List (List FragRecord)) (f : FragRecord) (pg : ℕ) :
    (redistribute_step geo st f pg).length = st.length := by
  unfold redistribute_step
  match f.path with
  | none => exact length_appendAt st pg f
  | some PathVal.blob => exact length_appendAt st pg f
  | some (PathVal.qpath cmds) => exact length_appendAt_foldl _ st

lemma length_redistribute_foldl (l : List RedistEntry) :
    ∀ (geo : WebtoonGeometry) (st : List (List FragRecord)),
    (l.foldl (fun c x => redistribute_step geo c x.frag x.origPage) st).length =
      st.length := by
  induction l with
  | nil => intro geo st; rfl
  | cons e rest ih =>
    intro geo st
    rw [List.foldl_cons, ih, length_redistribute_step]

lemma mem_getD_appendAt (st : List (List FragRecord)) (i : ℕ)
    (x y : FragRecord) (p : ℕ) (h : y ∈ st.getD p []) :
    y ∈ (appendAt st i x).getD p [] := by
  unfold appendAt
  rw [getD_modifyAt]
  by_cases hc : p = i ∧ i < st.length
  · rw [if_pos hc]
    exact List.mem_append_left _ h
  · rw [if_neg hc]
    exact h

lemma mem_getD_appendAt_foldl (l : List (ℕ × StrokeData)) :
    ∀ (st : List (List FragRecord)) (y : FragRecord) (p : ℕ),
    y ∈ st.getD p [] →
    y ∈ (l.foldl (fun c pr =>
      appendAt c pr.1 { path := some (PathVal.qpath pr.2.path),
                        pen := pr.2.pen, brush := pr.2.brush,
                        width := pr.2.width }) st).getD p [] := by
  induction l with
  | nil => intro st y p h; exact h
  | cons pr rest ih =>
    intro st y p h
    rw [List.foldl_cons]
    exact ih _ y p (mem_getD_appendAt _ _ _ y p h)

lemma mem_getD_redistribute_step (geo : WebtoonGeometry)
    (st : List (List FragRecord)) (f : FragRecord) (pg : ℕ)
    (y : FragRecord) (p : ℕ) (h : y ∈ st.getD p []) :
    y ∈ (redistribute_step geo st f pg).getD p [] := by
  unfold redistribute_step
  match f.path with
  | none => exact mem_getD_appendAt st pg f y p h
  | some PathVal.blob => exact mem_getD_appendAt st pg f y p h
  | some (PathVal.qpath cmds) => exact mem_getD_appendAt_foldl _ st y p h

lemma mem_getD_redistribute_foldl (l : List RedistEntry) :
    ∀ (geo : WebtoonGeometry) (st : List (List FragRecord))
      (y : FragRecord) (p : ℕ),
    y ∈ st.getD p [] →
    y ∈ (l.foldl (fun c x =>
      redistribute_step geo c x.frag x.origPage) st).getD p [] := by
  induction l with
  | nil => intro geo st y p h; exact h
  | cons e rest ih =>
    intro geo st y p h
    rw [List.foldl_cons]
    exact ih geo _ y p (mem_getD_redistribute_step geo st _ _ y p h)

lemma redistribute_step_bad (geo : WebtoonGeometry)
    (st : List (List FragRecord)) (f : FragRecord) (pg : ℕ)
    (hbad : f.path = none ∨ f.path = some PathVal.blob)
    (hpg : pg < st.length) :
    f ∈ (redistribute_step geo st f pg).getD pg [] := by
  have happ : f ∈ (appendAt st pg f).getD pg [] := by
    unfold appendAt
    rw [getD_modifyAt, if_pos ⟨rfl, hpg⟩]
    exact List.mem_append_right _ (List.mem_singleton_self f)
  unfold redistribute_step
  rcases hbad with h | h <;> rw [h] <;> exact happ

/-- Claim C6: with pairwise distinct object ids,
`redistribute_existing_brush_strokes` is the plain left fold of the
independent per-fragment step over the batch — each fragment is
processed exactly once and in isolation — and any fragment whose
`path` is missing or has no usable geometry ends up unchanged on its
original page instead of being dropped. -/
theorem claim_c6 (geo : WebtoonGeometry) (batch : List RedistEntry)
    (st : List (List FragRecord)) (e : RedistEntry)
    (hnd : (batch.map RedistEntry.oid).Nodup)
    (he : e ∈ batch)
    (hbad : e.frag.path = none ∨ e.frag.path = some PathVal.blob)
    (hp : e.origPage < st.length) :
    redistribute_existing_brush_strokes geo batch st =
      batch.foldl (fun c x => redistribute_step geo c x.frag x.origPage) st ∧
    e.frag ∈ (redistribute_existing_brush_strokes geo batch
      st).getD e.origPage [] := by
  have h1 : redistribute_existing_brush_strokes geo batch st =
      batch.foldl (fun c x => redistribute_step geo c x.frag x.origPage) st :=
    redistribute_go_eq_foldl geo batch [] st
      (fun x _ hmem => List.not_mem_nil _ hmem) hnd
  refine ⟨h1, ?_⟩
  rw [h1]
  obtain ⟨l1, l2, rfl⟩ := List.append_of_mem he
  rw [List.foldl_append, List.foldl_cons]
  refine mem_getD_redistribute_foldl l2 geo _ e.frag e.origPage ?_
  refine redistribute_step_bad geo _ e.frag e.origPage hbad ?_
  rw [length_redistribute_foldl]
  exact hp

/-- Witness for claim C6: the concrete ten-fragment batch on `geoTwo`
whose fragment number 5 has a missing path: redistribution equals the
independent fold, and the bad fragment stays on its original page
1. -/
theorem claim_c6_witness :
    redistribute_existing_brush_strokes geoTwo batchTen statesTwo =
      batchTen.foldl (fun c x =>
        redistribute_step geoTwo c x.frag x.origPage) statesTwo ∧
    badFrag ∈ (redistribute_existing_brush_strokes geoTwo batchTen
      statesTwo).getD 1 [] :=
  claim_c6 geoTwo batchTen statesTwo badEntry
    (by with_unfolding_all decide) (by with_unfolding_all decide)
    (Or.inl rfl) (by with_unfolding_all decide)

end BrushStrokeManager
